import Mathlib

/-!
# Verification of `dags/excel_to_postgres.py`

A shallow embedding of the ETL DAG `excel_to_postgres_daily`:
discovery (`list_excel_files`), validation/transform
(`validate_and_transform`), and the staged upsert load (`load_upsert`),
together with the directory bookkeeping the tasks perform.

Spreadsheet cells, the pandas casting primitives the script calls
(`pd.to_numeric`, `pd.to_datetime`, `.astype(str)`, `.astype("int64")`),
and the filesystem are modelled explicitly; the database merge is
modelled as a fold of single-row upserts over the staged rows, which is
the semantics of `INSERT ... ON CONFLICT (id) DO UPDATE` when the staged
ids are distinct.
-/

namespace EtlSpec

instance instDecEqExcept {ε α : Type} [DecidableEq ε] [DecidableEq α] :
    DecidableEq (Except ε α) := fun x y =>
  match x, y with
  | .ok a, .ok b =>
      if h : a = b then .isTrue (by rw [h])
      else .isFalse (fun hh => h (Except.ok.inj hh))
  | .ok _, .error _ => .isFalse (fun hh => Except.noConfusion hh)
  | .error _, .ok _ => .isFalse (fun hh => Except.noConfusion hh)
  | .error e, .error f =>
      if h : e = f then .isTrue (by rw [h])
      else .isFalse (fun hh => h (Except.error.inj hh))

/-- A spreadsheet cell as surfaced by `pd.read_excel`: an empty cell reads
as NaN (`missing`), numbers as floats (modelled as rationals), text as
strings, and date-typed cells as datetime values (modelled as an abstract
day code). -/
inductive Cell where
  | missing
  | numC (q : ℚ)
  | strC (s : String)
  | dateC (d : ℕ)
deriving DecidableEq, Repr

/-- Interpret a list of digit characters as a natural number; `none` if any
character is not a digit or the list is empty. -/
def digitsVal (cs : List Char) : Option ℕ :=
  if cs.isEmpty ∨ ¬ cs.all Char.isDigit then none
  else some (cs.foldl (fun acc c => acc * 10 + (c.toNat - 48)) 0)

/-- Strip leading and trailing whitespace from a character list (Python's
`str.strip()` / pandas `.str.strip()`). -/
def trimChars (cs : List Char) : List Char :=
  ((cs.dropWhile Char.isWhitespace).reverse.dropWhile Char.isWhitespace).reverse

/-- `str.strip()` on a string. -/
def strTrim (s : String) : String :=
  (trimChars s.toList).asString

/-- Does `s` start with the literal text `p`? -/
def strStartsWith (s p : String) : Bool :=
  p.toList.isPrefixOf s.toList

/-- Does `s` end with the literal text `p`? -/
def strEndsWith (s p : String) : Bool :=
  p.toList.isSuffixOf s.toList

/-- Split a character list at every occurrence of the separator
(`str.split(sep)`: n separators yield n+1 pieces, empty pieces kept). -/
def splitChar (sep : Char) : List Char → List (List Char)
  | [] => [[]]
  | c :: rest =>
      match splitChar sep rest with
      | [] => if c == sep then [[], []] else [[c]]
      | h :: t => if c == sep then [] :: h :: t else (c :: h) :: t

/-- Model of numeric string parsing as done by `pd.to_numeric` on a string
cell: optional sign, then digits with at most one decimal point
(`"5"`, `"-5"`, `"5.25"`, `".5"`); anything else is unparseable. -/
def parseRatStr (s : String) : Option ℚ :=
  let t := trimChars s.toList
  let (neg, body) : Bool × List Char :=
    match t with
    | '-' :: rest => (true, rest)
    | '+' :: rest => (false, rest)
    | _ => (false, t)
  match splitChar '.' body with
  | [ip] =>
      (digitsVal ip).map (fun n => if neg then -(n : ℚ) else (n : ℚ))
  | [ip, fp] =>
      if ip.length + fp.length = 0 then none
      else
        (digitsVal (ip ++ fp)).map
          (fun n =>
            if neg then -(mkRat n (10 ^ fp.length))
            else mkRat n (10 ^ fp.length))
  | _ => none

/-- `pd.to_numeric(col, errors="raise")` on one cell: NaN passes through as
NaN (`none`), numbers stay, strings must parse, datetimes convert to their
underlying numeric value. -/
def toNumericRaise (c : Cell) : Except String (Option ℚ) :=
  match c with
  | .missing => .ok none
  | .numC q => .ok (some q)
  | .strC s =>
      match parseRatStr s with
      | some q => .ok (some q)
      | none => .error ("Unable to parse string " ++ s)
  | .dateC d => .ok (some d)

/-- `pd.to_numeric(col, errors="coerce")` on one cell: like the raising
form but unparseable values become NaN (`none`). -/
def toNumericCoerce (c : Cell) : Option ℚ :=
  match c with
  | .missing => none
  | .numC q => some q
  | .strC s => parseRatStr s
  | .dateC d => some d

/-- Truncation of a rational toward zero, the behaviour of a float →
int64 cast. -/
def ratTrunc (q : ℚ) : ℤ :=
  if 0 ≤ q then ⌊q⌋ else -⌊-q⌋

/-- `.astype("int64")` on a numeric column value: a NaN (missing) value
raises `IntCastingNaNError`; a finite value truncates toward zero. -/
def astypeInt64 (oq : Option ℚ) : Except String ℤ :=
  match oq with
  | none => .error "Cannot convert non-finite values (NA or inf) to integer"
  | some q => .ok (ratTrunc q)

/-- Decimal rendering of a rational, for `.astype(str)` on numeric cells. -/
def ratStr (q : ℚ) : String :=
  if q.den = 1 then toString q.num
  else toString q.num ++ "/" ++ toString q.den

/-- `.astype(str)` on one cell: crucially, a NaN cell is string-cast to the
literal text `"nan"`, not to an empty or null value. -/
def astypeStr (c : Cell) : String :=
  match c with
  | .missing => "nan"
  | .numC q => ratStr q
  | .strC s => s
  | .dateC d => toString d

/-- Model of date-string parsing (`pd.to_datetime` on text): an ISO
`YYYY-MM-DD` string becomes the day code `y*10000 + m*100 + d`; anything
else is unparseable. -/
def parseDateStr (s : String) : Option ℕ :=
  match (splitChar '-' (trimChars s.toList)).map digitsVal with
  | [some y, some m, some d] =>
      if 1 ≤ m ∧ m ≤ 12 ∧ 1 ≤ d ∧ d ≤ 31 then some (y * 10000 + m * 100 + d)
      else none
  | _ => none

/-- `pd.to_datetime(col, errors="coerce").dt.date` on one cell: missing
stays missing (NaT), date cells keep their day code, strings must parse as
dates, and an integer number is accepted as a raw day index. -/
def parseDateCell (c : Cell) : Option ℕ :=
  match c with
  | .missing => none
  | .dateC d => some d
  | .strC s => parseDateStr s
  | .numC q => if q.den = 1 ∧ 0 ≤ q.num then some q.num.toNat else none

/-- The `REQ_COLUMNS` mapping of the script: Excel header name → final
column name. `brand` is listed here too (the inline comment calls it
optional, but membership in this dict is what the column check uses). -/
def REQ_COLUMNS : List (String × String) :=
  [("id", "id"),
   ("name_sales_code", "salescode"),
   ("date_order", "dateorder"),
   ("amount_total", "totalsales"),
   ("brand", "brand")]

/-- An input spreadsheet: a header row of column names and the data rows,
each a list of cells aligned with the header. -/
structure Sheet where
  header : List String
  rows : List (List Cell)
deriving DecidableEq, Repr

/-- Look up the cell of column `c` in a row (missing column or short row
reads as NaN). -/
def getCell (hdr : List String) (row : List Cell) (c : String) : Cell :=
  match hdr.findIdx? (fun h => h == c) with
  | some i => row.getD i Cell.missing
  | none => Cell.missing

/-- A normalized record as written to the intermediate CSV and staged into
Postgres: columns `id, salescode, dateorder, totalsales, brand`. -/
structure Row where
  id : ℤ
  salescode : String
  dateorder : Option ℕ
  totalsales : ℚ
  brand : Option String
deriving DecidableEq, Repr

/-- The per-row effect of the casting block (lines 74-81 of the script):
`id` is numerically parsed (raise) then int64-cast; `salescode` is
string-cast then trimmed; `dateorder` is date-parsed with coercion;
`totalsales` is numerically parsed with coercion then NaN-filled with 0;
`brand` is string-cast and trimmed when the column exists, else None. -/
def castRow (hdr : List String) (row : List Cell) : Except String Row := do
  let n ← toNumericRaise (getCell hdr row "id")
  let i ← astypeInt64 n
  pure { id := i,
         salescode := strTrim (astypeStr (getCell hdr row "name_sales_code")),
         dateorder := parseDateCell (getCell hdr row "date_order"),
         totalsales := (toNumericCoerce (getCell hdr row "amount_total")).getD 0,
         brand := if hdr.contains "brand"
                  then some (strTrim (astypeStr (getCell hdr row "brand")))
                  else none }

/-- Cast every row; the first failing cast aborts the whole file, matching
the column-wise `errors="raise"` behaviour. -/
def castRows (hdr : List String) : List (List Cell) → Except String (List Row)
  | [] => .ok []
  | row :: rest => do
      let r ← castRow hdr row
      let rs ← castRows hdr rest
      pure (r :: rs)

/-- The validate-and-transform stage on one parsed sheet: check that every
`REQ_COLUMNS` key is present (else fail naming the missing ones), cast and
clean each row, then drop rows whose `dateorder` is missing
(`dropna(subset=["id", "dateorder"])`; `id` is already a non-null int64
column at that point). -/
def validate_and_transform (s : Sheet) : Except String (List Row) := do
  let miss := (REQ_COLUMNS.map Prod.fst).filter (fun c => !(s.header.contains c))
  if ¬ miss.isEmpty then
    throw ("Missing columns: " ++ String.intercalate ", " miss)
  let cast ← castRows s.header s.rows
  pure (cast.filter (fun r => r.dateorder.isSome))

/-! ## Discovery (`list_excel_files`) -/

/-- Lexicographic comparison of character lists by code point, the order
Python's `sorted` uses on path strings. -/
def charListLe : List Char → List Char → Bool
  | [], _ => true
  | _ :: _, [] => false
  | a :: as, b :: bs =>
      if a.toNat < b.toNat then true
      else if b.toNat < a.toNat then false
      else charListLe as bs

/-- Lexicographic string comparison by code point. -/
def strLe (a b : String) : Bool :=
  charListLe a.toList b.toList

/-- `strLe` as a relation, for sortedness statements. -/
def strLeP (a b : String) : Prop :=
  strLe a b = true

instance instDecStrLeP : DecidableRel strLeP :=
  fun a b => instDecidableEqBool (strLe a b) true

/-- The candidate list the discovery task computes before its emptiness
check: glob `*.xlsx` then `*.XLSX` over the incoming directory (POSIX
glob, case-sensitive), deduplicate and sort (`sorted(set(files))`), then
drop Office lock files (names starting with `~$`). -/
def excelCandidates (dir : List String) : List String :=
  let files := dir.filter (fun f => strEndsWith f ".xlsx")
      ++ dir.filter (fun f => strEndsWith f ".XLSX")
  (List.insertionSort strLeP files.dedup).filter
    (fun f => !(strStartsWith f "~$"))

/-- The discovery task: fail with a `RuntimeError` when no candidate file
exists, else return the candidates. -/
def list_excel_files (dir : List String) : Except String (List String) :=
  let files := excelCandidates dir
  if files.isEmpty then
    .error "Tidak ada file .xlsx di incoming"
  else
    .ok files

/-! ## Target table and upsert -/

/-- One `INSERT ... ON CONFLICT (id) DO UPDATE` for a single staged row:
on a primary-key conflict every non-key column (salescode, dateorder,
totalsales, brand) is overwritten with the staged values; otherwise the
row is inserted. -/
def upsertRow (t : List Row) (r : Row) : List Row :=
  if t.any (fun x => x.id == r.id) then
    t.map (fun x => if x.id == r.id then r else x)
  else
    t ++ [r]

/-- The merge statement of `load_upsert` applied to the staged rows:
a fold of single-row upserts (the semantics of the single
`INSERT ... SELECT ... ON CONFLICT DO UPDATE` when staged ids are
distinct). -/
def mergeRows (t : List Row) (rs : List Row) : List Row :=
  rs.foldl upsertRow t

/-- The row of `sales_daily` keyed by `i`, if any. -/
def lookupId (t : List Row) (i : ℤ) : Option Row :=
  t.find? (fun x => x.id == i)

/-! ## Filesystem and task wrappers -/

/-- The data-directory state the DAG manipulates: names present in
`incoming/`, `archive/` and `error/`, plus the intermediate CSV artifacts
(path ↦ staged rows). -/
structure FS where
  incoming : List String
  archive : List String
  error : List String
  artifacts : List (String × List Row)
deriving DecidableEq, Repr

/-- Place a name into a directory listing (a directory holds each name at
most once; `shutil.move` onto an existing entry overwrites it). -/
def addName (l : List String) (n : String) : List String :=
  if n ∈ l then l else l ++ [n]

/-- Delete an artifact file (`Path.unlink(missing_ok=True)`: no effect when
absent). -/
def eraseArtifact (l : List (String × List Row)) (n : String) :
    List (String × List Row) :=
  l.filter (fun p => !(p.1 == n))

/-- Read an artifact file's rows, if the file exists. -/
def lookupArtifact (l : List (String × List Row)) (n : String) :
    Option (List Row) :=
  (l.find? (fun p => p.1 == n)).map Prod.snd

/-- `p.with_suffix(".csv")`: replace the final extension of a file name. -/
def csvOf (name : String) : String :=
  let parts := splitChar '.' name.toList
  (if parts.length ≤ 1 then name.toList ++ ".csv".toList
   else List.intercalate ['.'] parts.dropLast ++ ".csv".toList).asString

/-- The `validate_and_transform` task wrapper around the pure transform:
on success, write the intermediate CSV next to the original and return the
payload `{filepath, tmp_csv}`; on any exception, best-effort move the
original into `error/` (`moveOk` models whether that move itself
succeeds; its failure is swallowed) and re-raise a `RuntimeError` that
carries the original exception as cause. -/
def validateTask (moveOk : Bool) (name : String) (sheet : Sheet) (fs : FS) :
    FS × Except (String × String) (String × String) :=
  match validate_and_transform sheet with
  | .ok recs =>
      ({ fs with artifacts :=
           eraseArtifact fs.artifacts (csvOf name) ++ [(csvOf name, recs)] },
       .ok (name, csvOf name))
  | .error e =>
      (if moveOk then
         { fs with incoming := fs.incoming.erase name,
                   error := addName fs.error name }
       else fs,
       .error ("Validasi/transform gagal untuk " ++ name, e))

/-- The `load_upsert` task, mirroring the script's effect order: create the
transaction-scoped staging table, open and COPY the CSV (`copyOk` models
an external failure of the bulk copy), run the merge statement (`mergeOk`
models an external failure of the merge), commit, and only then unlink the
CSV and move the original file into `archive/`. A failure before the
commit leaves the database (rolled back) and the filesystem untouched. -/
def load_upsert (copyOk mergeOk : Bool) (filepath tmp_csv : String)
    (fs : FS) (db : List Row) :
    (FS × List Row) × Except String Unit :=
  match lookupArtifact fs.artifacts tmp_csv with
  | none => ((fs, db), .error ("No such file or directory: " ++ tmp_csv))
  | some rows =>
      if ¬ copyOk then ((fs, db), .error "COPY failed")
      else if ¬ mergeOk then ((fs, db), .error "INSERT ... ON CONFLICT failed")
      else
        (({ fs with artifacts := eraseArtifact fs.artifacts tmp_csv,
                    incoming := fs.incoming.erase filepath,
                    archive := addName fs.archive filepath },
          mergeRows db rows),
         .ok ())

/-! ## Concrete inputs used by the claim theorems -/

/-- A header that has the four data columns but no `brand` column. -/
def c2Sheet : Sheet :=
  { header := ["id", "name_sales_code", "date_order", "amount_total"],
    rows := [[Cell.numC 1, Cell.strC "A", Cell.dateC 20250101, Cell.numC 5]] }

/-- A sheet whose single data row has a missing `id` cell (all required
columns present). -/
def c3SheetBad : Sheet :=
  { header := ["id", "name_sales_code", "date_order", "amount_total", "brand"],
    rows := [[Cell.missing, Cell.strC "A", Cell.dateC 20250101,
              Cell.numC 5, Cell.strC "B"]] }

/-- A sheet whose first row has a missing `date_order` and whose second row
is fully valid. -/
def c3SheetOk : Sheet :=
  { header := ["id", "name_sales_code", "date_order", "amount_total", "brand"],
    rows := [[Cell.numC 1, Cell.strC "S", Cell.missing,
              Cell.numC 3, Cell.strC "B"],
             [Cell.numC 2, Cell.strC "T", Cell.dateC 20250102,
              Cell.numC 4, Cell.strC "C"]] }

/-- The sheet whose `id` column holds the unparseable text `"abc"`. -/
def c5Sheet : Sheet :=
  { header := ["id", "name_sales_code", "date_order", "amount_total", "brand"],
    rows := [[Cell.strC "abc", Cell.strC "S", Cell.dateC 20250101,
              Cell.numC 5, Cell.strC "B"]] }

/-- The starting directory state for the C5 witness. -/
def c5FS : FS :=
  { incoming := ["f.xlsx"], archive := ["old.xlsx"], error := [],
    artifacts := [] }

/-- The record the transform produces for the C8 witness row. -/
def c8Row : Row :=
  { id := 3, salescode := "S", dateorder := some 20250101,
    totalsales := 0, brand := some "B" }

/-- The record the transform produces for the C10 witness row. -/
def c10Row : Row :=
  { id := 1, salescode := "nan", dateorder := some 20250101,
    totalsales := 2, brand := some "nan" }

/-! ## Lemmas about the lexicographic order used by discovery -/

theorem charListLe_total (as : List Char) :
    ∀ bs, charListLe as bs = true ∨ charListLe bs as = true := by
  induction as with
  | nil => intro bs; left; rfl
  | cons a as ih =>
      intro bs
      cases bs with
      | nil => right; rfl
      | cons b bs =>
          simp only [charListLe]
          by_cases h1 : a.toNat < b.toNat
          · left; simp [h1]
          · by_cases h2 : b.toNat < a.toNat
            · right; simp [h2]
            · rcases ih bs with h | h
              · left; simp [h1, h2, h]
              · right; simp [h1, h2, h]

theorem charListLe_trans (as : List Char) :
    ∀ bs cs, charListLe as bs = true → charListLe bs cs = true →
      charListLe as cs = true := by
  induction as with
  | nil => intro bs cs h1 h2; rfl
  | cons a as ih =>
      intro bs cs h1 h2
      cases bs with
      | nil => simp [charListLe] at h1
      | cons b bs =>
          cases cs with
          | nil => simp [charListLe] at h2
          | cons c cs =>
              simp only [charListLe] at h1 h2 ⊢
              rcases Nat.lt_trichotomy a.toNat b.toNat with hab | hab | hab
              · rcases Nat.lt_trichotomy b.toNat c.toNat with hbc | hbc | hbc
                · rw [if_pos (by omega)]
                · rw [if_pos (by omega)]
                · rw [if_neg (by omega), if_pos hbc] at h2
                  exact absurd h2 (by simp)
              · rw [if_neg (by omega), if_neg (by omega)] at h1
                rcases Nat.lt_trichotomy b.toNat c.toNat with hbc | hbc | hbc
                · rw [if_pos (by omega)]
                · rw [if_neg (by omega), if_neg (by omega)] at h2
                  rw [if_neg (by omega), if_neg (by omega)]
                  exact ih bs cs h1 h2
                · rw [if_neg (by omega), if_pos hbc] at h2
                  exact absurd h2 (by simp)
              · rw [if_neg (by omega), if_pos hab] at h1
                exact absurd h1 (by simp)

theorem strLeP_total (a b : String) : strLeP a b ∨ strLeP b a :=
  charListLe_total a.toList b.toList

theorem strLeP_trans (a b c : String) :
    strLeP a b → strLeP b c → strLeP a c :=
  charListLe_trans a.toList b.toList c.toList

/-! ## Lemmas about the upsert merge -/

theorem find?_map_replace (t : List Row) (r : Row)
    (h : t.any (fun x => x.id == r.id) = true) :
    (t.map (fun x => if x.id == r.id then r else x)).find?
      (fun x => x.id == r.id) = some r := by
  induction t with
  | nil => simp at h
  | cons x xs ih =>
      simp only [List.map_cons]
      by_cases hx : x.id = r.id
      · rw [if_pos (by simpa using hx)]
        exact List.find?_cons_of_pos _ (by simp)
      · rw [if_neg (by simpa using hx)]
        rw [List.find?_cons_of_neg _ (by simpa using hx)]
        apply ih
        simp only [List.any_cons, Bool.or_eq_true] at h
        exact h.resolve_left (by simpa using hx)

theorem find?_map_replace_ne (t : List Row) (r : Row) (i : ℤ) (h : i ≠ r.id) :
    (t.map (fun x => if x.id == r.id then r else x)).find?
      (fun x => x.id == i) = t.find? (fun x => x.id == i) := by
  induction t with
  | nil => rfl
  | cons x xs ih =>
      simp only [List.map_cons]
      by_cases hx : x.id = r.id
      · rw [if_pos (by simpa using hx)]
        rw [List.find?_cons_of_neg _ (by simpa using Ne.symm h)]
        rw [List.find?_cons_of_neg _ (by rw [hx]; simpa using Ne.symm h)]
        exact ih
      · rw [if_neg (by simpa using hx)]
        by_cases hxi : x.id = i
        · rw [List.find?_cons_of_pos _ (by simpa using hxi),
            List.find?_cons_of_pos _ (by simpa using hxi)]
        · rw [List.find?_cons_of_neg _ (by simpa using hxi),
            List.find?_cons_of_neg _ (by simpa using hxi)]
          exact ih

theorem find?_append_of_none {α : Type} (p : α → Bool) (l₁ l₂ : List α)
    (h : l₁.find? p = none) : (l₁ ++ l₂).find? p = l₂.find? p := by
  induction l₁ with
  | nil => simp
  | cons x xs ih =>
      cases hpx : p x with
      | false =>
          rw [List.find?_cons_of_neg _ (by simp [hpx])] at h
          rw [List.cons_append, List.find?_cons_of_neg _ (by simp [hpx])]
          exact ih h
      | true =>
          rw [List.find?_cons_of_pos _ hpx] at h
          cases h

theorem lookupId_upsertRow_self (t : List Row) (r : Row) :
    lookupId (upsertRow t r) r.id = some r := by
  unfold upsertRow lookupId
  by_cases ha : t.any (fun x => x.id == r.id) = true
  · rw [if_pos ha]
    exact find?_map_replace t r ha
  · rw [if_neg ha]
    have hnone : t.find? (fun x => x.id == r.id) = none := by
      rw [List.find?_eq_none]
      intro x hx hpx
      exact ha (List.any_eq_true.mpr ⟨x, hx, hpx⟩)
    rw [find?_append_of_none _ _ _ hnone]
    exact List.find?_cons_of_pos _ (by simp)

theorem find?_append_single_ne (t : List Row) (r : Row) (i : ℤ)
    (h : i ≠ r.id) :
    (t ++ [r]).find? (fun x => x.id == i) = t.find? (fun x => x.id == i) := by
  induction t with
  | nil =>
      rw [List.nil_append]
      rw [List.find?_cons_of_neg _ (by simpa using Ne.symm h)]
  | cons x xs ih =>
      by_cases hxi : x.id = i
      · rw [List.cons_append, List.find?_cons_of_pos _ (by simpa using hxi),
          List.find?_cons_of_pos _ (by simpa using hxi)]
      · rw [List.cons_append, List.find?_cons_of_neg _ (by simpa using hxi),
          List.find?_cons_of_neg _ (by simpa using hxi)]
        exact ih

theorem lookupId_upsertRow_ne (t : List Row) (r : Row) (i : ℤ) (h : i ≠ r.id) :
    lookupId (upsertRow t r) i = lookupId t i := by
  unfold upsertRow lookupId
  by_cases ha : t.any (fun x => x.id == r.id) = true
  · rw [if_pos ha]
    exact find?_map_replace_ne t r i h
  · rw [if_neg ha]
    exact find?_append_single_ne t r i h

theorem lookupId_mergeRows_notMem (rs : List Row) :
    ∀ (t : List Row) (i : ℤ), (∀ x ∈ rs, x.id ≠ i) →
      lookupId (mergeRows t rs) i = lookupId t i := by
  induction rs with
  | nil => intro t i _; rfl
  | cons a as ih =>
      intro t i h
      have ha : a.id ≠ i := h a (List.mem_cons_self a as)
      have has : ∀ x ∈ as, x.id ≠ i := fun x hx => h x (List.mem_cons_of_mem a hx)
      calc lookupId (mergeRows t (a :: as)) i
          = lookupId (mergeRows (upsertRow t a) as) i := rfl
        _ = lookupId (upsertRow t a) i := ih (upsertRow t a) i has
        _ = lookupId t i := lookupId_upsertRow_ne t a i (Ne.symm ha)

theorem lookupId_mergeRows_self (rs : List Row) :
    ∀ (t : List Row) (r : Row), (rs.map Row.id).Nodup → r ∈ rs →
      lookupId (mergeRows t rs) r.id = some r := by
  induction rs with
  | nil => intro t r _ hr; cases hr
  | cons a as ih =>
      intro t r hnd hr
      simp only [List.map_cons, List.nodup_cons] at hnd
      rcases List.mem_cons.mp hr with rfl | hmem
      · have hid : ∀ x ∈ as, x.id ≠ r.id := by
          intro x hx heq
          exact hnd.1 (heq ▸ List.mem_map_of_mem Row.id hx)
        calc lookupId (mergeRows t (r :: as)) r.id
            = lookupId (mergeRows (upsertRow t r) as) r.id := rfl
          _ = lookupId (upsertRow t r) r.id :=
              lookupId_mergeRows_notMem as (upsertRow t r) r.id hid
          _ = some r := lookupId_upsertRow_self t r
      · exact ih (upsertRow t a) r hnd.2 hmem

/-- C1: For every target-table state and every id, loading a row-set
containing that id via `load_upsert`'s merge leaves the target row for
that id exactly equal to the newly loaded values: on a primary-key
conflict all four non-key columns are overwritten, so loading the same id
twice from two files leaves the row matching the second load. (The staged
ids of one file are assumed distinct, as a set with a duplicated id has no
single "newly loaded value" for it.) -/
theorem upsert_overwrites (t rs1 rs2 : List Row) (r : Row)
    (hnd : (rs2.map Row.id).Nodup) (hr : r ∈ rs2) :
    lookupId (mergeRows t rs2) r.id = some r ∧
    lookupId (mergeRows (mergeRows t rs1) rs2) r.id = some r :=
  ⟨lookupId_mergeRows_self rs2 t r hnd hr,
   lookupId_mergeRows_self rs2 (mergeRows t rs1) r hnd hr⟩

theorem upsert_overwrites_witness :
    (([⟨1, "B", some 2, 9, none⟩] : List Row).map Row.id).Nodup ∧
    (⟨1, "B", some 2, 9, none⟩ : Row) ∈ ([⟨1, "B", some 2, 9, none⟩] : List Row) ∧
    lookupId (mergeRows [] [⟨1, "B", some 2, 9, none⟩])
      (Row.id ⟨1, "B", some 2, 9, none⟩) = some ⟨1, "B", some 2, 9, none⟩ ∧
    lookupId
      (mergeRows (mergeRows [] [⟨1, "A", some 1, 5, some "X"⟩])
        [⟨1, "B", some 2, 9, none⟩])
      (Row.id ⟨1, "B", some 2, 9, none⟩) = some ⟨1, "B", some 2, 9, none⟩ :=
  ⟨by decide, by decide,
   (upsert_overwrites [] [⟨1, "A", some 1, 5, some "X"⟩]
      [⟨1, "B", some 2, 9, none⟩] ⟨1, "B", some 2, 9, none⟩
      (by decide) (by decide)).1,
   (upsert_overwrites [] [⟨1, "A", some 1, 5, some "X"⟩]
      [⟨1, "B", some 2, 9, none⟩] ⟨1, "B", some 2, 9, none⟩
      (by decide) (by decide)).2⟩

/-! ## Lemmas about the transform -/

theorem castRows_cons (hdr : List String) (row : List Cell)
    (rest : List (List Cell)) :
    castRows hdr (row :: rest) =
      match castRow hdr row with
      | .error e => .error e
      | .ok r =>
          match castRows hdr rest with
          | .error e => .error e
          | .ok rs => .ok (r :: rs) := by
  simp only [castRows]
  cases hca : castRow hdr row with
  | error e => rfl
  | ok r =>
      cases hcs : castRows hdr rest with
      | error e => rfl
      | ok rs => rfl

theorem castRows_isOk_false_of_mem (hdr : List String) (rows : List (List Cell))
    (row : List Cell) (hmem : row ∈ rows)
    (herr : (castRow hdr row).isOk = false) :
    (castRows hdr rows).isOk = false := by
  induction rows with
  | nil => cases hmem
  | cons a as ih =>
      rw [castRows_cons]
      rcases List.mem_cons.mp hmem with rfl | hmem
      · cases hca : castRow hdr row with
        | error e => rfl
        | ok r => rw [hca] at herr; cases herr
      · cases hca : castRow hdr a with
        | error e => rfl
        | ok r =>
            cases hcs : castRows hdr as with
            | error e => rfl
            | ok rs =>
                have hfalse := ih hmem
                rw [hcs] at hfalse
                cases hfalse

theorem castRows_isOk_true_of_forall (hdr : List String)
    (rows : List (List Cell))
    (hall : ∀ row ∈ rows, (castRow hdr row).isOk = true) :
    (castRows hdr rows).isOk = true := by
  induction rows with
  | nil => rfl
  | cons a as ih =>
      rw [castRows_cons]
      cases hca : castRow hdr a with
      | error e =>
          have := hall a (List.mem_cons_self a as)
          rw [hca] at this
          cases this
      | ok r =>
          cases hcs : castRows hdr as with
          | error e =>
              have := ih (fun row h => hall row (List.mem_cons_of_mem a h))
              rw [hcs] at this
              cases this
          | ok rs => rfl

theorem validate_eq (s : Sheet) :
    validate_and_transform s =
      if ((REQ_COLUMNS.map Prod.fst).filter
            (fun c => !(s.header.contains c))).isEmpty then
        match castRows s.header s.rows with
        | .error e => .error e
        | .ok cast => .ok (cast.filter (fun r => r.dateorder.isSome))
      else
        .error ("Missing columns: " ++
          String.intercalate ", "
            ((REQ_COLUMNS.map Prod.fst).filter
              (fun c => !(s.header.contains c)))) := by
  simp only [validate_and_transform]
  cases h : ((REQ_COLUMNS.map Prod.fst).filter
      (fun c => !(s.header.contains c))).isEmpty with
  | false =>
      rw [if_pos (by simp [h]), if_neg (by simp [h])]
      rfl
  | true =>
      rw [if_neg (by simp [h]), if_pos (by simp [h])]
      cases hc : castRows s.header s.rows with
      | error e => rfl
      | ok cast => rfl

/-- A row whose `id` cell is missing makes the int64 cast raise
`IntCastingNaNError` for the whole file. -/
theorem castRow_missing_id (hdr : List String) (row : List Cell)
    (h : getCell hdr row "id" = Cell.missing) :
    castRow hdr row =
      .error "Cannot convert non-finite values (NA or inf) to integer" := by
  unfold castRow
  rw [h]
  rfl

/-- C2 (code bug): the script's own comment marks `brand` as optional and
lines 78-81 even branch on its absence, but `brand` is a key of
`REQ_COLUMNS`, so the line-63 column check rejects any sheet lacking it:
`validate_and_transform` fails with "Missing columns: brand" instead of
succeeding with a null-filled brand column. -/
theorem brand_required_despite_optional :
    validate_and_transform c2Sheet = .error "Missing columns: brand" := by
  decide

/-- C3 counterexample: a row with a missing `id` is not dropped — the whole
file errors out of the transform (the int64 cast raises on NaN), where the
claim says the row is dropped without an error. -/
theorem c3_missing_id_errors_cex :
    validate_and_transform c3SheetBad =
      .error "Cannot convert non-finite values (NA or inf) to integer" := by
  decide

/-- C3 (amended): for sheets that pass the required-column check, a row
whose `dateorder` is missing is dropped, never surfacing in the output
(no output row has a null `dateorder`; `id` is a non-null int64 by
construction), and the transform still succeeds when every row's `id`
casts; but a row whose `id` is missing makes the transform fail instead of
being dropped. -/
theorem transform_null_handling (s : Sheet) :
    (∀ out, validate_and_transform s = .ok out →
      ∀ r ∈ out, r.dateorder.isSome = true) ∧
    (∀ row ∈ s.rows, getCell s.header row "id" = Cell.missing →
      (validate_and_transform s).isOk = false) ∧
    (((REQ_COLUMNS.map Prod.fst).filter
        (fun c => !(s.header.contains c))).isEmpty = true →
      (∀ row ∈ s.rows, (castRow s.header row).isOk = true) →
      (validate_and_transform s).isOk = true) := by
  refine ⟨?_, ?_, ?_⟩
  · intro out hok r hr
    rw [validate_eq] at hok
    by_cases h : ((REQ_COLUMNS.map Prod.fst).filter
        (fun c => !(s.header.contains c))).isEmpty = true
    · rw [if_pos h] at hok
      cases hc : castRows s.header s.rows with
      | error e => rw [hc] at hok; cases hok
      | ok cast =>
          rw [hc] at hok
          have hok2 : Except.ok (α := List Row) (ε := String)
              (cast.filter (fun r => r.dateorder.isSome)) = .ok out := hok
          rw [← Except.ok.inj hok2] at hr
          exact (List.mem_filter.mp hr).2
    · rw [if_neg h] at hok; cases hok
  · intro row hmem hmiss
    rw [validate_eq]
    by_cases h : ((REQ_COLUMNS.map Prod.fst).filter
        (fun c => !(s.header.contains c))).isEmpty = true
    · rw [if_pos h]
      have herr : (castRow s.header row).isOk = false := by
        rw [castRow_missing_id s.header row hmiss]; rfl
      have hko := castRows_isOk_false_of_mem s.header s.rows row hmem herr
      cases hc : castRows s.header s.rows with
      | error e => rfl
      | ok cast => rw [hc] at hko; cases hko
    · rw [if_neg h]; rfl
  · intro hempty hall
    rw [validate_eq, if_pos hempty]
    have hko := castRows_isOk_true_of_forall s.header s.rows hall
    cases hc : castRows s.header s.rows with
    | error e => rw [hc] at hko; cases hko
    | ok cast => rfl

theorem transform_null_handling_witness :
    validate_and_transform c3SheetOk =
      .ok [{ id := 2, salescode := "T", dateorder := some 20250102,
             totalsales := 4, brand := some "C" }] ∧
    (∀ r ∈ [({ id := 2, salescode := "T", dateorder := some 20250102,
               totalsales := 4, brand := some "C" } : Row)],
      r.dateorder.isSome = true) ∧
    [Cell.missing, Cell.strC "A", Cell.dateC 20250101,
      Cell.numC 5, Cell.strC "B"] ∈ c3SheetBad.rows ∧
    getCell c3SheetBad.header
      [Cell.missing, Cell.strC "A", Cell.dateC 20250101,
        Cell.numC 5, Cell.strC "B"] "id" = Cell.missing ∧
    (validate_and_transform c3SheetBad).isOk = false :=
  ⟨by decide,
   (transform_null_handling c3SheetOk).1 _ (by decide),
   by decide, by decide,
   (transform_null_handling c3SheetBad).2.1
     [Cell.missing, Cell.strC "A", Cell.dateC 20250101,
       Cell.numC 5, Cell.strC "B"] (by decide) (by decide)⟩

/-! ## Lemmas about the filesystem bookkeeping -/

theorem lookupArtifact_erase (l : List (String × List Row)) (n : String) :
    lookupArtifact (eraseArtifact l n) n = none := by
  unfold lookupArtifact eraseArtifact
  have hnone : (l.filter (fun p => !(p.1 == n))).find? (fun p => p.1 == n)
      = none := by
    rw [List.find?_eq_none]
    intro p hp
    have hkeep := (List.mem_filter.mp hp).2
    simp only [Bool.not_eq_true'] at hkeep
    simp [hkeep]
  rw [hnone]
  rfl

theorem mem_addName (l : List String) (n : String) : n ∈ addName l n := by
  unfold addName
  by_cases h : n ∈ l
  · simp [h]
  · simp [h]

/-- C4: if the bulk COPY or the merge statement fails (or the intermediate
CSV cannot even be opened), `load_upsert` fails and performs no filesystem
effect: the original file stays in `incoming/` (moved to neither archive
nor error) and the intermediate artifact is not deleted; the database is
also untouched (rollback). -/
theorem load_failure_leaves_file (copyOk mergeOk : Bool)
    (filepath tmp_csv : String) (fs : FS) (db : List Row)
    (hfail : copyOk = false ∨ mergeOk = false) :
    (load_upsert copyOk mergeOk filepath tmp_csv fs db).1.1 = fs ∧
    (load_upsert copyOk mergeOk filepath tmp_csv fs db).1.2 = db ∧
    (load_upsert copyOk mergeOk filepath tmp_csv fs db).2.isOk = false := by
  unfold load_upsert
  cases hart : lookupArtifact fs.artifacts tmp_csv with
  | none => exact ⟨rfl, rfl, rfl⟩
  | some rows =>
      rcases hfail with h | h
      · subst h
        exact ⟨rfl, rfl, rfl⟩
      · subst h
        cases copyOk with
        | false => exact ⟨rfl, rfl, rfl⟩
        | true => exact ⟨rfl, rfl, rfl⟩

theorem load_failure_leaves_file_witness :
    ((false = false ∨ true = false) ∧
      (load_upsert false true "f.xlsx" "f.csv"
        ⟨["f.xlsx"], [], [], [("f.csv", [])]⟩ []).1.1 =
        ⟨["f.xlsx"], [], [], [("f.csv", [])]⟩) ∧
    (load_upsert false true "f.xlsx" "f.csv"
      ⟨["f.xlsx"], [], [], [("f.csv", [])]⟩ []).1.2 = [] ∧
    (load_upsert false true "f.xlsx" "f.csv"
      ⟨["f.xlsx"], [], [], [("f.csv", [])]⟩ []).2.isOk = false :=
  ⟨⟨Or.inl rfl,
    (load_failure_leaves_file false true "f.xlsx" "f.csv"
      ⟨["f.xlsx"], [], [], [("f.csv", [])]⟩ [] (Or.inl rfl)).1⟩,
   (load_failure_leaves_file false true "f.xlsx" "f.csv"
      ⟨["f.xlsx"], [], [], [("f.csv", [])]⟩ [] (Or.inl rfl)).2.1,
   (load_failure_leaves_file false true "f.xlsx" "f.csv"
      ⟨["f.xlsx"], [], [], [("f.csv", [])]⟩ [] (Or.inl rfl)).2.2⟩

/-- C9: when the COPY and the merge succeed, `load_upsert` merges the
staged rows into `sales_daily`, deletes the intermediate CSV, and moves
the original file from `incoming/` to `archive/`; `error/` is untouched,
so a successful run of a lone incoming file leaves it exactly in archive
with its artifact gone and nothing in error. -/
theorem load_success_archives (filepath tmp_csv : String) (fs : FS)
    (db rows : List Row)
    (hart : lookupArtifact fs.artifacts tmp_csv = some rows) :
    (load_upsert true true filepath tmp_csv fs db).2 = .ok () ∧
    (load_upsert true true filepath tmp_csv fs db).1.2 = mergeRows db rows ∧
    (load_upsert true true filepath tmp_csv fs db).1.1.artifacts =
      eraseArtifact fs.artifacts tmp_csv ∧
    lookupArtifact
      (load_upsert true true filepath tmp_csv fs db).1.1.artifacts tmp_csv
      = none ∧
    (load_upsert true true filepath tmp_csv fs db).1.1.incoming =
      fs.incoming.erase filepath ∧
    (load_upsert true true filepath tmp_csv fs db).1.1.archive =
      addName fs.archive filepath ∧
    filepath ∈ (load_upsert true true filepath tmp_csv fs db).1.1.archive ∧
    (load_upsert true true filepath tmp_csv fs db).1.1.error = fs.error ∧
    (fs.incoming = [filepath] →
      (load_upsert true true filepath tmp_csv fs db).1.1.incoming = []) ∧
    (fs.archive = [] →
      (load_upsert true true filepath tmp_csv fs db).1.1.archive =
        [filepath]) := by
  unfold load_upsert
  rw [hart]
  refine ⟨rfl, rfl, rfl, ?_, rfl, rfl, ?_, rfl, ?_, ?_⟩
  · exact lookupArtifact_erase fs.artifacts tmp_csv
  · exact mem_addName fs.archive filepath
  · intro h
    show fs.incoming.erase filepath = []
    rw [h, List.erase_cons_head]
  · intro h
    show addName fs.archive filepath = [filepath]
    rw [h]
    simp [addName]

theorem load_success_archives_witness :
    lookupArtifact
      (FS.artifacts ⟨["f.xlsx"], [], [], [("f.csv", [⟨1, "S", some 7, 3, none⟩])]⟩)
      "f.csv" = some [⟨1, "S", some 7, 3, none⟩] ∧
    (load_upsert true true "f.xlsx" "f.csv"
      ⟨["f.xlsx"], [], [], [("f.csv", [⟨1, "S", some 7, 3, none⟩])]⟩ []).2 =
      .ok () ∧
    (load_upsert true true "f.xlsx" "f.csv"
      ⟨["f.xlsx"], [], [], [("f.csv", [⟨1, "S", some 7, 3, none⟩])]⟩ []).1.2 =
      mergeRows [] [⟨1, "S", some 7, 3, none⟩] ∧
    lookupArtifact
      (load_upsert true true "f.xlsx" "f.csv"
        ⟨["f.xlsx"], [], [], [("f.csv", [⟨1, "S", some 7, 3, none⟩])]⟩
        []).1.1.artifacts "f.csv" = none ∧
    (load_upsert true true "f.xlsx" "f.csv"
      ⟨["f.xlsx"], [], [], [("f.csv", [⟨1, "S", some 7, 3, none⟩])]⟩
      []).1.1.incoming = [] ∧
    (load_upsert true true "f.xlsx" "f.csv"
      ⟨["f.xlsx"], [], [], [("f.csv", [⟨1, "S", some 7, 3, none⟩])]⟩
      []).1.1.archive = ["f.xlsx"] ∧
    (load_upsert true true "f.xlsx" "f.csv"
      ⟨["f.xlsx"], [], [], [("f.csv", [⟨1, "S", some 7, 3, none⟩])]⟩
      []).1.1.error = [] :=
  ⟨by decide,
   (load_success_archives "f.xlsx" "f.csv" _ [] [⟨1, "S", some 7, 3, none⟩]
      (by decide)).1,
   (load_success_archives "f.xlsx" "f.csv" _ [] [⟨1, "S", some 7, 3, none⟩]
      (by decide)).2.1,
   (load_success_archives "f.xlsx" "f.csv" _ [] [⟨1, "S", some 7, 3, none⟩]
      (by decide)).2.2.2.1,
   (load_success_archives "f.xlsx" "f.csv"
      ⟨["f.xlsx"], [], [], [("f.csv", [⟨1, "S", some 7, 3, none⟩])]⟩ []
      [⟨1, "S", some 7, 3, none⟩] (by decide)).2.2.2.2.2.2.2.2.1 rfl,
   (load_success_archives "f.xlsx" "f.csv"
      ⟨["f.xlsx"], [], [], [("f.csv", [⟨1, "S", some 7, 3, none⟩])]⟩ []
      [⟨1, "S", some 7, 3, none⟩] (by decide)).2.2.2.2.2.2.2.2.2 rfl,
   (load_success_archives "f.xlsx" "f.csv"
      ⟨["f.xlsx"], [], [], [("f.csv", [⟨1, "S", some 7, 3, none⟩])]⟩ []
      [⟨1, "S", some 7, 3, none⟩] (by decide)).2.2.2.2.2.2.2.1⟩

/-- C5: if `validate_and_transform` raises any exception, the task moves
the original file to `error/` (best-effort: when the move itself fails,
`moveOk = false`, the failure is swallowed and the filesystem is left
unchanged), leaves archive and the artifacts untouched, and fails with a
`RuntimeError` that carries the original exception as its cause. -/
theorem transform_error_routes_to_error (moveOk : Bool) (name : String)
    (sheet : Sheet) (fs : FS) (e : String)
    (herr : validate_and_transform sheet = .error e) :
    (validateTask moveOk name sheet fs).2 =
      .error ("Validasi/transform gagal untuk " ++ name, e) ∧
    (validateTask moveOk name sheet fs).1.archive = fs.archive ∧
    (validateTask moveOk name sheet fs).1.artifacts = fs.artifacts ∧
    (moveOk = true →
      (validateTask moveOk name sheet fs).1.incoming =
        fs.incoming.erase name ∧
      (validateTask moveOk name sheet fs).1.error = addName fs.error name ∧
      name ∈ (validateTask moveOk name sheet fs).1.error) ∧
    (moveOk = false → (validateTask moveOk name sheet fs).1 = fs) := by
  unfold validateTask
  rw [herr]
  cases moveOk with
  | true =>
      refine ⟨rfl, rfl, rfl, fun _ => ⟨rfl, rfl, ?_⟩, fun h => ?_⟩
      · exact mem_addName fs.error name
      · cases h
  | false =>
      refine ⟨rfl, rfl, rfl, fun h => ?_, fun _ => rfl⟩
      cases h

theorem transform_error_routes_to_error_witness :
    validate_and_transform c5Sheet = .error "Unable to parse string abc" ∧
    (validateTask true "f.xlsx" c5Sheet c5FS).2 =
      .error ("Validasi/transform gagal untuk " ++ "f.xlsx",
        "Unable to parse string abc") ∧
    (validateTask true "f.xlsx" c5Sheet c5FS).1.archive = c5FS.archive ∧
    (validateTask true "f.xlsx" c5Sheet c5FS).1.artifacts = c5FS.artifacts ∧
    (validateTask true "f.xlsx" c5Sheet c5FS).1.incoming =
      c5FS.incoming.erase "f.xlsx" ∧
    (validateTask true "f.xlsx" c5Sheet c5FS).1.error =
      addName c5FS.error "f.xlsx" ∧
    "f.xlsx" ∈ (validateTask true "f.xlsx" c5Sheet c5FS).1.error ∧
    (validateTask false "f.xlsx" c5Sheet c5FS).1 = c5FS :=
  ⟨by decide,
   (transform_error_routes_to_error true "f.xlsx" c5Sheet c5FS
      "Unable to parse string abc" (by decide)).1,
   (transform_error_routes_to_error true "f.xlsx" c5Sheet c5FS
      "Unable to parse string abc" (by decide)).2.1,
   (transform_error_routes_to_error true "f.xlsx" c5Sheet c5FS
      "Unable to parse string abc" (by decide)).2.2.1,
   ((transform_error_routes_to_error true "f.xlsx" c5Sheet c5FS
      "Unable to parse string abc" (by decide)).2.2.2.1 rfl).1,
   ((transform_error_routes_to_error true "f.xlsx" c5Sheet c5FS
      "Unable to parse string abc" (by decide)).2.2.2.1 rfl).2.1,
   ((transform_error_routes_to_error true "f.xlsx" c5Sheet c5FS
      "Unable to parse string abc" (by decide)).2.2.2.1 rfl).2.2,
   (transform_error_routes_to_error false "f.xlsx" c5Sheet c5FS
      "Unable to parse string abc" (by decide)).2.2.2.2 rfl⟩

/-! ## Discovery claims -/

/-- C6: discovery returns the sorted, deduplicated list of spreadsheet
names, excluding Office lock files (`~$` prefix), and errors exactly when
that filtered candidate list is empty. -/
theorem discovery_output_props (dir : List String) :
    ((list_excel_files dir).isOk = false ↔ excelCandidates dir = []) ∧
    (∀ l, list_excel_files dir = .ok l →
      List.Sorted strLeP l ∧ l.Nodup ∧
      (∀ f ∈ l, strStartsWith f "~$" = false) ∧
      (∀ f ∈ l, strEndsWith f ".xlsx" = true ∨ strEndsWith f ".XLSX" = true)) := by
  constructor
  · simp only [list_excel_files]
    by_cases h : (excelCandidates dir).isEmpty = true
    · rw [if_pos h]
      exact ⟨fun _ => List.isEmpty_iff.mp h, fun _ => rfl⟩
    · rw [if_neg h]
      constructor
      · intro hff
        exact absurd hff (by simp [Except.isOk, Except.toBool])
      · intro hc
        exact absurd (by rw [hc]; rfl) h
  · intro l hok
    have hl : l = excelCandidates dir := by
      simp only [list_excel_files] at hok
      by_cases h : (excelCandidates dir).isEmpty = true
      · rw [if_pos h] at hok; cases hok
      · rw [if_neg h] at hok; exact (Except.ok.inj hok).symm
    subst hl
    haveI : IsTotal String strLeP := ⟨strLeP_total⟩
    haveI : IsTrans String strLeP := ⟨fun a b c => strLeP_trans a b c⟩
    simp only [excelCandidates]
    refine ⟨?_, ?_, ?_, ?_⟩
    · exact List.Pairwise.filter _ (List.sorted_insertionSort strLeP _)
    · exact List.Nodup.filter _
        ((List.perm_insertionSort strLeP _).symm.nodup (List.nodup_dedup _))
    · intro f hf
      have := (List.mem_filter.mp hf).2
      simpa using this
    · intro f hf
      have hins := (List.mem_filter.mp hf).1
      have hded := ((List.perm_insertionSort strLeP _).mem_iff).mp hins
      have happ := List.mem_dedup.mp hded
      rcases List.mem_append.mp happ with hx | hx
      · exact Or.inl (List.mem_filter.mp hx).2
      · exact Or.inr (List.mem_filter.mp hx).2

theorem discovery_output_props_witness :
    list_excel_files ["b.xlsx", "a.xlsx", "b.xlsx", "~$t.xlsx",
        "nope.txt", "c.XLSX"] =
      .ok ["a.xlsx", "b.xlsx", "c.XLSX"] ∧
    List.Sorted strLeP ["a.xlsx", "b.xlsx", "c.XLSX"] ∧
    (["a.xlsx", "b.xlsx", "c.XLSX"] : List String).Nodup ∧
    (∀ f ∈ (["a.xlsx", "b.xlsx", "c.XLSX"] : List String),
      strStartsWith f "~$" = false) ∧
    (∀ f ∈ (["a.xlsx", "b.xlsx", "c.XLSX"] : List String),
      strEndsWith f ".xlsx" = true ∨ strEndsWith f ".XLSX" = true) ∧
    (list_excel_files ["~$x.xlsx", "nope.txt"]).isOk = false :=
  ⟨by decide,
   ((discovery_output_props ["b.xlsx", "a.xlsx", "b.xlsx", "~$t.xlsx",
        "nope.txt", "c.XLSX"]).2 ["a.xlsx", "b.xlsx", "c.XLSX"] (by decide)).1,
   ((discovery_output_props ["b.xlsx", "a.xlsx", "b.xlsx", "~$t.xlsx",
        "nope.txt", "c.XLSX"]).2 ["a.xlsx", "b.xlsx", "c.XLSX"]
        (by decide)).2.1,
   ((discovery_output_props ["b.xlsx", "a.xlsx", "b.xlsx", "~$t.xlsx",
        "nope.txt", "c.XLSX"]).2 ["a.xlsx", "b.xlsx", "c.XLSX"]
        (by decide)).2.2.1,
   ((discovery_output_props ["b.xlsx", "a.xlsx", "b.xlsx", "~$t.xlsx",
        "nope.txt", "c.XLSX"]).2 ["a.xlsx", "b.xlsx", "c.XLSX"]
        (by decide)).2.2.2,
   (discovery_output_props ["~$x.xlsx", "nope.txt"]).1.mpr (by decide)⟩

/-- C7 counterexample: `"a.Xlsx"` has a case-insensitively matching
spreadsheet extension and no lock-file prefix, yet discovery excludes it —
the two globs `*.xlsx` / `*.XLSX` are case-sensitive and match neither
`.Xlsx` nor `.xlsX`. -/
theorem mixed_case_extension_excluded_cex :
    list_excel_files ["a.Xlsx", "b.xlsx"] = .ok ["b.xlsx"] ∧
    ("a.Xlsx" ∈ (["b.xlsx"] : List String) → False) :=
  ⟨by decide, by decide⟩

/-- C7 (amended): file matching is case-sensitive on exactly the two
globbed spellings: every directory entry ending in the literal `.xlsx` or
the literal `.XLSX` that lacks the lock-file prefix is included in the
discovery output (mixed-case extensions such as `.Xlsx` are not matched). -/
theorem discovery_exact_case_matching (dir : List String) (f : String)
    (hmem : f ∈ dir)
    (hext : strEndsWith f ".xlsx" = true ∨ strEndsWith f ".XLSX" = true)
    (hlock : strStartsWith f "~$" = false) :
    f ∈ excelCandidates dir ∧
    list_excel_files dir = .ok (excelCandidates dir) := by
  have hcand : f ∈ excelCandidates dir := by
    simp only [excelCandidates]
    apply List.mem_filter.mpr
    refine ⟨?_, by simp [hlock]⟩
    apply ((List.perm_insertionSort strLeP _).mem_iff).mpr
    apply List.mem_dedup.mpr
    apply List.mem_append.mpr
    rcases hext with h | h
    · exact Or.inl (List.mem_filter.mpr ⟨hmem, h⟩)
    · exact Or.inr (List.mem_filter.mpr ⟨hmem, h⟩)
  refine ⟨hcand, ?_⟩
  simp only [list_excel_files]
  rw [if_neg ?_]
  intro hh
  exact List.ne_nil_of_mem hcand (List.isEmpty_iff.mp hh)

theorem discovery_exact_case_matching_witness :
    ("c.XLSX" ∈ (["zz.txt", "c.XLSX"] : List String)) ∧
    (strEndsWith "c.XLSX" ".xlsx" = true ∨
      strEndsWith "c.XLSX" ".XLSX" = true) ∧
    strStartsWith "c.XLSX" "~$" = false ∧
    "c.XLSX" ∈ excelCandidates ["zz.txt", "c.XLSX"] ∧
    list_excel_files ["zz.txt", "c.XLSX"] =
      .ok (excelCandidates ["zz.txt", "c.XLSX"]) :=
  ⟨by decide, by decide, by decide,
   (discovery_exact_case_matching ["zz.txt", "c.XLSX"] "c.XLSX"
      (by decide) (by decide) (by decide)).1,
   (discovery_exact_case_matching ["zz.txt", "c.XLSX"] "c.XLSX"
      (by decide) (by decide) (by decide)).2⟩

/-! ## Casting claims -/

theorem except_ok_bind {ε α β : Type} (a : α) (f : α → Except ε β) :
    ((Except.ok a : Except ε α) >>= f) = f a := rfl

theorem castRow_eq_of_raise_error (hdr : List String) (row : List Cell)
    (e : String) (h : toNumericRaise (getCell hdr row "id") = .error e) :
    castRow hdr row = .error e := by
  simp only [castRow]
  rw [h]
  rfl

theorem castRow_eq_of_cast_error (hdr : List String) (row : List Cell)
    (n : Option ℚ) (e : String)
    (h1 : toNumericRaise (getCell hdr row "id") = .ok n)
    (h2 : astypeInt64 n = .error e) :
    castRow hdr row = .error e := by
  simp only [castRow]
  rw [h1, except_ok_bind, h2]
  rfl

theorem castRow_eq_ok (hdr : List String) (row : List Cell)
    (n : Option ℚ) (i : ℤ)
    (h1 : toNumericRaise (getCell hdr row "id") = .ok n)
    (h2 : astypeInt64 n = .ok i) :
    castRow hdr row =
      .ok { id := i,
            salescode :=
              strTrim (astypeStr (getCell hdr row "name_sales_code")),
            dateorder := parseDateCell (getCell hdr row "date_order"),
            totalsales :=
              (toNumericCoerce (getCell hdr row "amount_total")).getD 0,
            brand := if hdr.contains "brand"
                     then some (strTrim (astypeStr (getCell hdr row "brand")))
                     else none } := by
  simp only [castRow]
  rw [h1, except_ok_bind, h2]
  rfl

/-- C8 counterexample: a negative `amount_total` flows straight through the
transform, so an output record can carry a negative `totalsales`. -/
theorem totalsales_negative_cex :
    validate_and_transform
      { header := ["id", "name_sales_code", "date_order",
                   "amount_total", "brand"],
        rows := [[Cell.numC 2, Cell.strC "S", Cell.dateC 20250101,
                  Cell.numC (-5), Cell.strC "B"]] } =
      .ok [{ id := 2, salescode := "S", dateorder := some 20250101,
             totalsales := -5, brand := some "B" }] ∧
    ((0 : ℚ) ≤ -5 → False) :=
  ⟨by decide, by decide⟩

/-- C8 (amended): `totalsales` is always the numeric value
`pd.to_numeric(..., errors="coerce")` yields for the `amount_total` cell,
NaN-filled with 0 — in particular any unparseable value (such as the text
`"abc"`) or missing cell becomes `0.0` instead of raising; negative values
are kept as-is. -/
theorem totalsales_parsed_or_zero (hdr : List String) (row : List Cell)
    (r : Row) (hok : castRow hdr row = .ok r) :
    r.totalsales = (toNumericCoerce (getCell hdr row "amount_total")).getD 0 ∧
    (toNumericCoerce (getCell hdr row "amount_total") = none →
      r.totalsales = 0) ∧
    toNumericCoerce (Cell.strC "abc") = none := by
  cases h1 : toNumericRaise (getCell hdr row "id") with
  | error e => rw [castRow_eq_of_raise_error hdr row e h1] at hok; cases hok
  | ok n =>
      cases h2 : astypeInt64 n with
      | error e =>
          rw [castRow_eq_of_cast_error hdr row n e h1 h2] at hok; cases hok
      | ok i =>
          rw [castRow_eq_ok hdr row n i h1 h2] at hok
          have hinj := Except.ok.inj hok
          refine ⟨?_, ?_, by decide⟩
          · rw [← hinj]
          · intro hnone
            rw [← hinj]
            show (toNumericCoerce (getCell hdr row "amount_total")).getD 0 = 0
            rw [hnone]
            rfl

theorem totalsales_parsed_or_zero_witness :
    castRow ["id", "name_sales_code", "date_order", "amount_total", "brand"]
      [Cell.numC 3, Cell.strC "S", Cell.dateC 20250101,
        Cell.strC "abc", Cell.strC "B"] = .ok c8Row ∧
    toNumericCoerce
      (getCell ["id", "name_sales_code", "date_order", "amount_total", "brand"]
        [Cell.numC 3, Cell.strC "S", Cell.dateC 20250101,
          Cell.strC "abc", Cell.strC "B"] "amount_total") = none ∧
    c8Row.totalsales = 0 :=
  ⟨by decide, by decide,
   (totalsales_parsed_or_zero
      ["id", "name_sales_code", "date_order", "amount_total", "brand"]
      [Cell.numC 3, Cell.strC "S", Cell.dateC 20250101,
        Cell.strC "abc", Cell.strC "B"] c8Row
      (by decide)).2.1 (by decide)⟩

/-- C10: a missing (NaN) `salescode` or `brand` cell is string-cast before
any missing-value handling, so the normalized record stores the literal
trimmed text `"nan"`, not a null. -/
theorem nan_stringcast (hdr : List String) (row : List Cell) (r : Row)
    (hok : castRow hdr row = .ok r) :
    (getCell hdr row "name_sales_code" = Cell.missing →
      r.salescode = "nan") ∧
    (hdr.contains "brand" = true →
      getCell hdr row "brand" = Cell.missing → r.brand = some "nan") := by
  cases h1 : toNumericRaise (getCell hdr row "id") with
  | error e => rw [castRow_eq_of_raise_error hdr row e h1] at hok; cases hok
  | ok n =>
      cases h2 : astypeInt64 n with
      | error e =>
          rw [castRow_eq_of_cast_error hdr row n e h1 h2] at hok; cases hok
      | ok i =>
          rw [castRow_eq_ok hdr row n i h1 h2] at hok
          have hinj := Except.ok.inj hok
          constructor
          · intro hm
            rw [← hinj]
            show strTrim (astypeStr (getCell hdr row "name_sales_code")) = "nan"
            rw [hm]
            rfl
          · intro hb hm
            rw [← hinj]
            show (if hdr.contains "brand" = true
                  then some (strTrim (astypeStr (getCell hdr row "brand")))
                  else none) = some "nan"
            rw [if_pos hb, hm]
            rfl

theorem nan_stringcast_witness :
    castRow ["id", "name_sales_code", "date_order", "amount_total", "brand"]
      [Cell.numC 1, Cell.missing, Cell.dateC 20250101,
        Cell.numC 2, Cell.missing] = .ok c10Row ∧
    c10Row.salescode = "nan" ∧
    c10Row.brand = some "nan" :=
  ⟨by decide,
   (nan_stringcast
      ["id", "name_sales_code", "date_order", "amount_total", "brand"]
      [Cell.numC 1, Cell.missing, Cell.dateC 20250101,
        Cell.numC 2, Cell.missing] c10Row (by decide)).1 (by decide),
   (nan_stringcast
      ["id", "name_sales_code", "date_order", "amount_total", "brand"]
      [Cell.numC 1, Cell.missing, Cell.dateC 20250101,
        Cell.numC 2, Cell.missing] c10Row (by decide)).2
      (by decide) (by decide)⟩

end EtlSpec
